import Mathlib

/-!
Verification of the lint-lab diagnostic-conversion tool.

This file embeds the program's data model and operations in Lean:
the shared report-entry record with its SipHash-2-4 fingerprint
(`gitlab.rs`), the compiler-diagnostic normalizer (`gitlab.rs`), the two
formatter-mismatch conversions (the minimal shape in `rustfmt.rs` and the
rich shape in `main.rs`), the stream pipelines of `main.rs`, and the stats
output assembly of `main.rs`; theorems about these definitions follow the
definitions.
-/

set_option autoImplicit false

namespace LintLab

/-! ## SipHash-2-4

Embedding of the hash behind `std::hash::SipHasher` (deprecated), which is
SipHash-2-4; `SipHasher::new()` uses the zero key.  64-bit words are `Nat`
reduced modulo `2 ^ 64`.
-/

def M64 : Nat := 18446744073709551616

def w64 (x : Nat) : Nat := x % M64

/-- Left rotation of a 64-bit word (input assumed `< 2 ^ 64`). -/
def rotl64 (x n : Nat) : Nat := ((x <<< n) % M64) ||| (x >>> (64 - n))

structure SipState where
  v0 : Nat
  v1 : Nat
  v2 : Nat
  v3 : Nat
  deriving DecidableEq

def sipRound (s : SipState) : SipState :=
  let v0 := w64 (s.v0 + s.v1)
  let v1 := rotl64 s.v1 13
  let v1 := v1 ^^^ v0
  let v0 := rotl64 v0 32
  let v2 := w64 (s.v2 + s.v3)
  let v3 := rotl64 s.v3 16
  let v3 := v3 ^^^ v2
  let v0 := w64 (v0 + v3)
  let v3 := rotl64 v3 21
  let v3 := v3 ^^^ v0
  let v2 := w64 (v2 + v1)
  let v1 := rotl64 v1 17
  let v1 := v1 ^^^ v2
  let v2 := rotl64 v2 32
  ⟨v0, v1, v2, v3⟩

/-- Little-endian word value of a byte list (at most 8 bytes used here). -/
def le64 (bytes : List Nat) : Nat :=
  bytes.foldr (fun b acc => b + 256 * acc) 0

/-- One SipHash compression step for a message word `m`. -/
def sipCompress (s : SipState) (m : Nat) : SipState :=
  let s := { s with v3 := s.v3 ^^^ m }
  let s := sipRound (sipRound s)
  { s with v0 := s.v0 ^^^ m }

/-- Consume all full 8-byte blocks, returning the state and the tail. -/
def sipBlocks (s : SipState) : List Nat → SipState × List Nat
  | b0 :: b1 :: b2 :: b3 :: b4 :: b5 :: b6 :: b7 :: rest =>
      sipBlocks (sipCompress s (le64 [b0, b1, b2, b3, b4, b5, b6, b7])) rest
  | rest => (s, rest)

/-- SipHash-2-4 of a byte stream under key `(k0, k1)`. -/
def sipHash24 (k0 k1 : Nat) (data : List Nat) : Nat :=
  let s0 : SipState :=
    ⟨k0 ^^^ 0x736f6d6570736575, k1 ^^^ 0x646f72616e646f6d,
     k0 ^^^ 0x6c7967656e657261, k1 ^^^ 0x7465646279746573⟩
  let (s, rest) := sipBlocks s0 data
  let finalWord := ((data.length % 256) <<< 56) + le64 rest
  let s := sipCompress s finalWord
  let s := { s with v2 := s.v2 ^^^ 0xff }
  let s := sipRound (sipRound (sipRound (sipRound s)))
  s.v0 ^^^ s.v1 ^^^ s.v2 ^^^ s.v3

/-- The byte stream fed to a `std::hash::SipHasher`; `finish` hashes the
bytes written so far, in order, so the hasher state is that byte list. -/
structure SipHasher where
  bytes : List Nat
  deriving DecidableEq

def SipHasher.new : SipHasher := ⟨[]⟩

def SipHasher.write (h : SipHasher) (data : List Nat) : SipHasher :=
  ⟨h.bytes ++ data⟩

def SipHasher.write_u8 (h : SipHasher) (b : Nat) : SipHasher :=
  ⟨h.bytes ++ [b]⟩

def SipHasher.finish (h : SipHasher) : Nat :=
  sipHash24 0 0 h.bytes

/-! ## UTF-8 and hex rendering -/

/-- UTF-8 encoding of one character (the bytes `str::as_bytes` exposes). -/
def utf8EncodeCharNat (c : Char) : List Nat :=
  let v := c.toNat
  if v < 0x80 then [v]
  else if v < 0x800 then
    [0xC0 ||| (v >>> 6), 0x80 ||| (v &&& 0x3F)]
  else if v < 0x10000 then
    [0xE0 ||| (v >>> 12), 0x80 ||| ((v >>> 6) &&& 0x3F), 0x80 ||| (v &&& 0x3F)]
  else
    [0xF0 ||| (v >>> 18), 0x80 ||| ((v >>> 12) &&& 0x3F),
     0x80 ||| ((v >>> 6) &&& 0x3F), 0x80 ||| (v &&& 0x3F)]

/-- The UTF-8 bytes of a string (`String::as_bytes` in the source). -/
def utf8Bytes (s : String) : List Nat :=
  s.data.foldr (fun c acc => utf8EncodeCharNat c ++ acc) []

/-- Rust's `format!("\x7b:x\x7d", n)`: lowercase hexadecimal, no padding. -/
def natToHex (n : Nat) : String :=
  String.mk (Nat.toDigits 16 n)

/-! ## Report entry (`gitlab.rs`) -/

inductive Severity where
  | Info
  | Minor
  | Major
  | Critical
  | Blocker
  deriving DecidableEq

structure Lines where
  begin : Nat
  deriving DecidableEq

structure Location where
  path : String
  lines : Lines
  deriving DecidableEq

structure CodeQualityReportEntry where
  description : String
  check_name : String
  fingerprint : String
  severity : Severity
  location : Location
  deriving DecidableEq

/-- `CodeQualityReportEntry::new`: the fingerprint is the hex rendering of
a zero-key SipHash over the filename bytes, one `0xff` byte, and the
description bytes. -/
def CodeQualityReportEntry.new (check_name : String) (severity : Severity)
    (description : String) (filename : String) (lineno : Nat) :
    CodeQualityReportEntry :=
  let fingerprint :=
    let hasher := SipHasher.new
    let hasher := hasher.write (utf8Bytes filename)
    let hasher := hasher.write_u8 0xff
    let hasher := hasher.write (utf8Bytes description)
    natToHex hasher.finish
  { description := description
    check_name := check_name
    fingerprint := fingerprint
    severity := severity
    location := { path := filename, lines := { begin := lineno } } }

/-! ## Compiler diagnostics (external `cargo_metadata` records)

Only the fields the program reads are modelled.  `DiagnosticLevel` is
non-exhaustive upstream; `Unknown` stands for any level beyond the six
named variants, matching the source's wildcard match arm. -/

inductive DiagnosticLevel where
  | Ice
  | Error
  | Warning
  | FailureNote
  | Note
  | Help
  | Unknown (s : String)
  deriving DecidableEq

structure DiagnosticSpanLine where
  text : String
  deriving DecidableEq

structure DiagnosticSpan where
  file_name : String
  line_start : Nat
  text : List DiagnosticSpanLine
  deriving DecidableEq

structure DiagnosticCode where
  code : String
  deriving DecidableEq

structure Diagnostic where
  message : String
  code : Option DiagnosticCode
  level : DiagnosticLevel
  spans : List DiagnosticSpan
  deriving DecidableEq

structure CompilerMessage where
  message : Diagnostic
  deriving DecidableEq

/-- `TryFrom<DiagnosticLevel> for Severity` (`gitlab.rs`); `none` is the
`Err(())` path. -/
def Severity.tryFrom : DiagnosticLevel → Option Severity
  | DiagnosticLevel.Note | DiagnosticLevel.Help => some Severity.Info
  | DiagnosticLevel.Error => some Severity.Major
  | DiagnosticLevel.Warning => some Severity.Minor
  | DiagnosticLevel.Ice | DiagnosticLevel.FailureNote => none
  | DiagnosticLevel.Unknown _ => none

/-- Rust's `str::trim`: the string without its leading and trailing
whitespace characters. -/
def strTrim (s : String) : String :=
  String.mk
    (((s.data.dropWhile Char.isWhitespace).reverse.dropWhile
        Char.isWhitespace).reverse)

/-- `TryFrom<CompilerMessage> for CodeQualityReportEntry` (`gitlab.rs`);
`spans.first()` is `head?`, `?` is the `none` path, and `collect::<String>`
of trimmed span lines is concatenation without separators. -/
def tryFromCompilerMessage (value : CompilerMessage) :
    Option CodeQualityReportEntry :=
  let diagnostic := value.message
  let description := diagnostic.message
  match diagnostic.spans.head? with
  | none => none
  | some span =>
    let path := span.file_name
    let lineBegin := span.line_start
    let span_text := String.join (span.text.map (fun line => strTrim line.text))
    match Severity.tryFrom diagnostic.level with
    | none => none
    | some sev =>
      some (CodeQualityReportEntry.new
        ((diagnostic.code.map DiagnosticCode.code).getD "unknown")
        sev
        (description ++ ". " ++ span_text)
        path
        lineBegin)

/-! ## Formatter mismatches, minimal shape (`rustfmt.rs`) -/

structure MismatchMin where
  original_begin_line : Nat
  deriving DecidableEq

structure RustfmtJsonEntryMin where
  name : String
  mismatches : List MismatchMin
  deriving DecidableEq

/-- `TryFrom<RustfmtJsonEntry> for CodeQualityReportEntry` (`rustfmt.rs`):
one entry from the first mismatch, `none` when the list is empty. -/
def tryFromRustfmtJsonEntryMin (value : RustfmtJsonEntryMin) :
    Option CodeQualityReportEntry :=
  match value.mismatches.head? with
  | none => none
  | some m =>
    some (CodeQualityReportEntry.new "rustfmt" Severity.Minor ""
      value.name m.original_begin_line)

/-! ## Formatter mismatches, rich shape (`mod rustfmt` in `main.rs`) -/

structure Mismatch where
  original_begin_line : Nat
  original : String
  expected : String
  deriving DecidableEq

structure RustfmtJsonEntry where
  name : String
  mismatches : List Mismatch
  deriving DecidableEq

/-- The enumerated-zip loop inside `diff`: the first index `i` (counting
from the accumulator) at which the paired characters differ, `none` when
the zipped region is difference-free. -/
def firstDiffAux : List Char → List Char → Nat → Option Nat
  | c1 :: r1, c2 :: r2, i =>
    if c1 ≠ c2 then some i else firstDiffAux r1 r2 (i + 1)
  | _, _, _ => none

/-- `diff` in `main.rs`: `byte_idx.unwrap()` panics when the loop found no
differing character, modelled by `none`. -/
def diff (original expected : String) : Option String :=
  match firstDiffAux original.data expected.data 0 with
  | none => none
  | some i =>
    some ("Difference at byte: " ++ toString i ++ ".\noriginal: "
      ++ original ++ ". expected: " ++ expected)

/-- Collection of per-element results where a `none` (a panic in the
element's conversion) aborts the whole collection, first failure first. -/
def collectPanics {α β : Type} (f : α → Option β) : List α → Option (List β)
  | [] => some []
  | x :: xs =>
    match f x with
    | none => none
    | some y =>
      match collectPanics f xs with
      | none => none
      | some ys => some (y :: ys)

/-- `From<RustfmtJsonEntry> for Vec<CodeQualityReportEntry>` (`main.rs`):
one entry per mismatch, in order; a panic inside `diff` aborts the whole
conversion, modelled by `none`. -/
def vecFromRustfmtJsonEntry (value : RustfmtJsonEntry) :
    Option (List CodeQualityReportEntry) :=
  collectPanics (fun e =>
    (diff e.original e.expected).map (fun description =>
      CodeQualityReportEntry.new "rustfmt" Severity.Minor description
        value.name e.original_begin_line))
    value.mismatches

/-! ## Stream pipelines (`main.rs`)

`Message::parse_stream` decodes each input line externally; a line is
modelled by its decode result: `none` for a line the parser fails to
decode (dropped by `filter_map(Result::ok)`), otherwise the decoded
message.  A `TextLine` carries the result of `serde_json::from_str::<Vec<
RustfmtJsonEntry>>` on its text — `none` models a text line that does not
parse as a JSON array of batch records (`unwrap_or_default` turns it into
zero batches). -/

inductive Message where
  | compilerMessage (msg : CompilerMessage)
  | textLine (payload : Option (List RustfmtJsonEntry))
  | other
  deriving DecidableEq

/-- `gitlab_clippy` (`main.rs`), up to serialization: the entry sequence
collected from the stream. -/
def gitlab_clippy (input : List (Option Message)) :
    List CodeQualityReportEntry :=
  (input.filterMap id).filterMap (fun each =>
    match each with
    | Message.compilerMessage msg => tryFromCompilerMessage msg
    | _ => none)

/-- `rustfmt::rustfmt` (`main.rs`), up to serialization: the flattened
batch list feeding the rich-shape conversion; a panic in any conversion
aborts the run (`none`). -/
def rustfmt_run (input : List (Option Message)) :
    Option (List CodeQualityReportEntry) :=
  let batches := (input.filterMap id).flatMap (fun each =>
    match each with
    | Message.textLine payload => payload.getD []
    | _ => [])
  (collectPanics vecFromRustfmtJsonEntry batches).map List.flatten

/-! ## Stats path (`main.rs`) -/

inductive Format where
  | Json
  | OpenMetrics
  deriving DecidableEq

structure Stats where
  number_of_packages : Option Nat
  deriving DecidableEq

/-- The serde serialization of `Stats`: one field, whose key is
`number_of_packages` renamed by the source's `rename_all = "camelCase"`
attribute. -/
def Stats.serialize (s : Stats) : List (String × Option Nat) :=
  [("numberOfPackages", s.number_of_packages)]

/-- The observable stats output: either the serialized JSON object, or the
metrics registration (name, help text, gauge value) that the text encoder
renders. -/
inductive StatsOutput where
  | json (fields : List (String × Option Nat))
  | openMetrics (name help : String) (value : Int)
  deriving DecidableEq

/-- `stats` (`main.rs`), abstracted over the lockfile package count, up to
the external encoders. -/
def stats (num_packages : Nat) : Format → StatsOutput
  | Format.Json =>
    StatsOutput.json (Stats.serialize { number_of_packages := some num_packages })
  | Format.OpenMetrics =>
    StatsOutput.openMetrics "dependencies" "number of dependencies"
      (Int.ofNat num_packages)

/-! ## Theorems -/

/-- C1: the report-entry constructor computes the fingerprint as the
zero-key SipHash-2-4 of the UTF-8 bytes of the file path, then the fixed
separator byte `0xff`, then the UTF-8 bytes of the description, rendered as
lowercase hexadecimal; consequently two constructions sharing the
`(path, description)` pair share the fingerprint, whatever their check
name, severity, or line number. -/
theorem fingerprint_keyed_hash (check_name₁ check_name₂ : String)
    (sev₁ sev₂ : Severity) (description file_path : String) (n₁ n₂ : Nat) :
    (CodeQualityReportEntry.new check_name₁ sev₁ description file_path n₁).fingerprint
      = natToHex (sipHash24 0 0
          (utf8Bytes file_path ++ 0xff :: utf8Bytes description)) ∧
    (CodeQualityReportEntry.new check_name₁ sev₁ description file_path n₁).fingerprint
      = (CodeQualityReportEntry.new check_name₂ sev₂ description file_path n₂).fingerprint := by
  constructor <;>
    simp [CodeQualityReportEntry.new, SipHasher.new, SipHasher.write,
      SipHasher.write_u8, SipHasher.finish]

/-- C2: the severity mapping sends note and help to Info, warning to
Minor, error to Major, and rejects internal-compiler-error, failure-note
and every unrecognized level; a rejected level makes the normalizer emit
no entry. -/
theorem severity_mapping :
    Severity.tryFrom DiagnosticLevel.Note = some Severity.Info ∧
    Severity.tryFrom DiagnosticLevel.Help = some Severity.Info ∧
    Severity.tryFrom DiagnosticLevel.Warning = some Severity.Minor ∧
    Severity.tryFrom DiagnosticLevel.Error = some Severity.Major ∧
    Severity.tryFrom DiagnosticLevel.Ice = none ∧
    Severity.tryFrom DiagnosticLevel.FailureNote = none ∧
    (∀ s : String, Severity.tryFrom (DiagnosticLevel.Unknown s) = none) ∧
    (∀ msg : CompilerMessage, Severity.tryFrom msg.message.level = none →
      tryFromCompilerMessage msg = none) := by
  refine ⟨rfl, rfl, rfl, rfl, rfl, rfl, fun s => rfl, fun msg h => ?_⟩
  cases hs : msg.message.spans.head? <;>
    simp [tryFromCompilerMessage, hs, h]

theorem severity_mapping_witness :
    Severity.tryFrom DiagnosticLevel.Ice = none ∧
    tryFromCompilerMessage
      ⟨⟨"internal error", none, DiagnosticLevel.Ice, [⟨"a.rs", 1, []⟩]⟩⟩
      = none :=
  ⟨by decide, severity_mapping.2.2.2.2.2.2.2 _ (by decide)⟩

/-- C4: a diagnostic with an empty span list yields no entry, whatever its
level. -/
theorem zero_spans_no_entry (msg : CompilerMessage)
    (h : msg.message.spans = []) : tryFromCompilerMessage msg = none := by
  simp [tryFromCompilerMessage, h]

theorem zero_spans_no_entry_witness :
    tryFromCompilerMessage ⟨⟨"m", none, DiagnosticLevel.Error, []⟩⟩ = none :=
  zero_spans_no_entry ⟨⟨"m", none, DiagnosticLevel.Error, []⟩⟩ rfl

/-- C5: when the span list starts with `s` (in particular when there are
two or more spans), the conversion equals the conversion of the same
diagnostic keeping only `s`, and any entry produced locates at `s`'s file
name and 1-based starting line — later spans have no effect. -/
theorem first_span_only (d : Diagnostic) (s : DiagnosticSpan)
    (rest : List DiagnosticSpan) (h : d.spans = s :: rest) :
    tryFromCompilerMessage ⟨d⟩
      = tryFromCompilerMessage ⟨{ d with spans := [s] }⟩ ∧
    ∀ e, tryFromCompilerMessage ⟨d⟩ = some e →
      e.location.path = s.file_name ∧
        e.location.lines.begin = s.line_start := by
  constructor
  · simp [tryFromCompilerMessage, h]
  · intro e he
    cases hv : Severity.tryFrom d.level <;>
      simp [tryFromCompilerMessage, h, hv] at he
    subst he
    exact ⟨rfl, rfl⟩

theorem first_span_only_witness :
    tryFromCompilerMessage
        ⟨⟨"m", none, DiagnosticLevel.Warning,
          [⟨"a.rs", 3, []⟩, ⟨"b.rs", 9, []⟩]⟩⟩
      = tryFromCompilerMessage
        ⟨⟨"m", none, DiagnosticLevel.Warning, [⟨"a.rs", 3, []⟩]⟩⟩ :=
  (first_span_only
    ⟨"m", none, DiagnosticLevel.Warning, [⟨"a.rs", 3, []⟩, ⟨"b.rs", 9, []⟩]⟩
    ⟨"a.rs", 3, []⟩ [⟨"b.rs", 9, []⟩] rfl).1

/-- C6: every produced entry's description is the diagnostic's message,
then the separator `". "`, then the first span's source lines each
trimmed of leading and trailing whitespace and concatenated without a
separator. -/
theorem description_from_message_and_span (msg : CompilerMessage)
    (e : CodeQualityReportEntry) (h : tryFromCompilerMessage msg = some e) :
    ∃ span, msg.message.spans.head? = some span ∧
      e.description = msg.message.message ++ ". "
        ++ String.join (span.text.map (fun line => strTrim line.text)) := by
  cases hs : msg.message.spans.head? with
  | none => simp [tryFromCompilerMessage, hs] at h
  | some span =>
    cases hv : Severity.tryFrom msg.message.level <;>
      simp [tryFromCompilerMessage, hs, hv] at h
    subst h
    exact ⟨span, rfl, rfl⟩

theorem description_from_message_and_span_witness :
    ∃ span,
      (⟨⟨"unused variable", none, DiagnosticLevel.Warning,
        [⟨"a.rs", 3, [⟨"  let x = 1;  "⟩, ⟨" let y;"⟩]⟩]⟩⟩ :
          CompilerMessage).message.spans.head? = some span ∧
      ("unused variable. let x = 1;let y;" : String)
        = "unused variable" ++ ". "
          ++ String.join (span.text.map (fun line => strTrim line.text)) := by
  have h := description_from_message_and_span
    ⟨⟨"unused variable", none, DiagnosticLevel.Warning,
      [⟨"a.rs", 3, [⟨"  let x = 1;  "⟩, ⟨" let y;"⟩]⟩]⟩⟩
    (CodeQualityReportEntry.new "unknown" Severity.Minor
      "unused variable. let x = 1;let y;" "a.rs" 3) (by decide)
  simpa using h

/-- C7: the minimal-shape conversion yields no entry on an empty mismatch
list and otherwise exactly one entry, located at the batch's file name and
the first mismatch's 1-based starting line, with empty description, check
name `"rustfmt"` and severity Minor. -/
theorem minimal_shape_contract (value : RustfmtJsonEntryMin) :
    (value.mismatches = [] → tryFromRustfmtJsonEntryMin value = none) ∧
    ∀ m rest, value.mismatches = m :: rest →
      ∃ e, tryFromRustfmtJsonEntryMin value = some e ∧
        e.check_name = "rustfmt" ∧ e.severity = Severity.Minor ∧
        e.description = "" ∧ e.location.path = value.name ∧
        e.location.lines.begin = m.original_begin_line := by
  constructor
  · intro h
    simp [tryFromRustfmtJsonEntryMin, h]
  · intro m rest h
    refine ⟨CodeQualityReportEntry.new "rustfmt" Severity.Minor ""
        value.name m.original_begin_line,
      by simp [tryFromRustfmtJsonEntryMin, h], rfl, rfl, rfl, rfl, rfl⟩

theorem minimal_shape_contract_witness :
    tryFromRustfmtJsonEntryMin ⟨"f.rs", []⟩ = none ∧
    ∃ e, tryFromRustfmtJsonEntryMin ⟨"f.rs", [⟨7⟩]⟩ = some e ∧
      e.check_name = "rustfmt" ∧ e.severity = Severity.Minor ∧
      e.description = "" ∧ e.location.path = "f.rs" ∧
      e.location.lines.begin = 7 :=
  ⟨(minimal_shape_contract ⟨"f.rs", []⟩).1 rfl,
   (minimal_shape_contract ⟨"f.rs", [⟨7⟩]⟩).2 ⟨7⟩ [] rfl⟩

theorem firstDiffAux_eq_none_of_pref (a : List Char) :
    ∀ (b : List Char) (i : Nat),
      ((∃ t, a ++ t = b) ∨ (∃ t, b ++ t = a)) →
      firstDiffAux a b i = none := by
  induction a with
  | nil => intro b i _; cases b <;> rfl
  | cons c r ih =>
    intro b i h
    rcases h with ⟨t, ht⟩ | ⟨t, ht⟩
    · subst ht
      simpa [firstDiffAux] using ih (r ++ t) (i + 1) (Or.inl ⟨t, rfl⟩)
    · cases b with
      | nil => rfl
      | cons c' r' =>
        injection ht with h1 h2
        subst h1
        simpa [firstDiffAux] using ih r' (i + 1) (Or.inr ⟨t, h2⟩)

theorem collectPanics_eq_none_of_mem {α β : Type} (f : α → Option β)
    (l : List α) (a : α) (ha : a ∈ l) (hf : f a = none) :
    collectPanics f l = none := by
  induction l with
  | nil => cases ha
  | cons x xs ih =>
    rcases List.mem_cons.mp ha with rfl | hmem
    · simp [collectPanics, hf]
    · cases hx : f x <;> simp [collectPanics, hx, ih hmem]

theorem collectPanics_eq_some_map {α β : Type} (g : α → Option β)
    (h : α → β) (l : List α) (hl : ∀ a ∈ l, g a = some (h a)) :
    collectPanics g l = some (l.map h) := by
  induction l with
  | nil => rfl
  | cons x xs ih =>
    simp [collectPanics, hl x (List.mem_cons_self x xs),
      ih (fun a ha => hl a (List.mem_cons_of_mem _ ha))]

/-- C3 counterexample: with original `"a"` and expected `"ab"` the two
texts are not character-identical, yet the conversion takes its failure
path (the enumerated zip finds no differing paired character and the
`unwrap` panics) instead of emitting one entry for the mismatch. -/
theorem rich_shape_counterexample :
    ("a" : String) ≠ "ab" ∧
    vecFromRustfmtJsonEntry ⟨"f.rs", [⟨1, "a", "ab"⟩]⟩ = none := by
  decide

/-- C3 (amended): the rich-shape conversion fails whenever some
mismatch's original character sequence is a prefix of the expected one or
vice versa (character-identical texts included); when every mismatch has a
differing paired-character position, it emits exactly one entry per
mismatch, in input order, whose description is
`"Difference at byte: <n>.\noriginal: <original>. expected: <expected>"`
with `<n>` the first differing character position. -/
theorem rich_shape_contract (value : RustfmtJsonEntry) :
    ((∃ m ∈ value.mismatches,
        (∃ t, m.original.data ++ t = m.expected.data) ∨
        (∃ t, m.expected.data ++ t = m.original.data)) →
      vecFromRustfmtJsonEntry value = none) ∧
    ∀ f : Mismatch → Nat,
      (∀ m ∈ value.mismatches,
        firstDiffAux m.original.data m.expected.data 0 = some (f m)) →
      vecFromRustfmtJsonEntry value = some (value.mismatches.map (fun m =>
        CodeQualityReportEntry.new "rustfmt" Severity.Minor
          ("Difference at byte: " ++ toString (f m) ++ ".\noriginal: "
            ++ m.original ++ ". expected: " ++ m.expected)
          value.name m.original_begin_line)) := by
  constructor
  · rintro ⟨m, hm, hpref⟩
    apply collectPanics_eq_none_of_mem _ _ m hm
    simp [diff, firstDiffAux_eq_none_of_pref m.original.data
      m.expected.data 0 hpref]
  · intro f hf
    apply collectPanics_eq_some_map
    intro m hm
    simp [diff, hf m hm]

theorem rich_shape_contract_witness :
    vecFromRustfmtJsonEntry
        ⟨"src/lib.rs", [⟨10, "fn foo()\x7b\x7d", "fn foo() \x7b\x7d"⟩]⟩
      = some [CodeQualityReportEntry.new "rustfmt" Severity.Minor
          ("Difference at byte: " ++ toString 8 ++ ".\noriginal: "
            ++ "fn foo()\x7b\x7d" ++ ". expected: " ++ "fn foo() \x7b\x7d")
          "src/lib.rs" 10] := by
  have h := (rich_shape_contract
      ⟨"src/lib.rs", [⟨10, "fn foo()\x7b\x7d", "fn foo() \x7b\x7d"⟩]⟩).2
    (fun _ => 8) (by decide)
  simpa using h

theorem filterMap_id_filter_isSome {α : Type} (l : List (Option α)) :
    (l.filter Option.isSome).filterMap id = l.filterMap id := by
  induction l with
  | nil => rfl
  | cons x xs ih => cases x <;> simp [List.filter_cons, ih]

/-- A line of the formatter stream carries entries exactly when it decoded
as a `TextLine` whose text parsed as a JSON array of batch records. -/
def rustfmtParseOk : Option Message → Bool
  | none => false
  | some (Message.textLine none) => false
  | some _ => true

theorem rustfmt_batches_filter (input : List (Option Message)) :
    (((input.filter rustfmtParseOk).filterMap id).flatMap (fun each =>
      match each with
      | Message.textLine payload => payload.getD []
      | _ => []))
      = ((input.filterMap id).flatMap (fun each =>
      match each with
      | Message.textLine payload => payload.getD []
      | _ => [])) := by
  induction input with
  | nil => rfl
  | cons x xs ih =>
    rcases x with _ | m
    · simpa [List.filter_cons, rustfmtParseOk] using ih
    · rcases m with msg | payload | _
      · simpa [List.filter_cons, rustfmtParseOk, List.filterMap_cons]
          using ih
      · rcases payload with _ | es <;>
          simpa [List.filter_cons, rustfmtParseOk, List.filterMap_cons]
            using ih
      · simpa [List.filter_cons, rustfmtParseOk, List.filterMap_cons]
          using ih

/-- C8: removing the unparseable lines of a stream — lines the external
parser fails to decode and, on the formatter path, text lines that do not
parse as a JSON array of batch records — leaves each pipeline's output
unchanged, so such lines interleaved with valid ones have no effect and
valid lines keep their order. -/
theorem unparseable_lines_ignored :
    (∀ input : List (Option Message),
      gitlab_clippy input = gitlab_clippy (input.filter Option.isSome)) ∧
    (∀ input : List (Option Message),
      rustfmt_run input = rustfmt_run (input.filter rustfmtParseOk)) := by
  constructor
  · intro input
    unfold gitlab_clippy
    rw [filterMap_id_filter_isSome]
  · intro input
    unfold rustfmt_run
    rw [rustfmt_batches_filter]

/-- C9 counterexample: with three counted packages and JSON format the
emitted object is keyed `"numberOfPackages"`, not the
`\x7b"dependencies": <n>\x7d` shape the claim states. -/
theorem stats_json_key_counterexample :
    stats 3 Format.Json ≠ StatsOutput.json [("dependencies", some 3)] := by
  decide

/-- C9 (amended): for a lockfile with `n` counted entries the stats path
emits, in JSON format, the object `\x7b"numberOfPackages": <n>\x7d` (the
camelCase rename of the `number_of_packages` field), and in the plain-text
metrics format a single gauge named `"dependencies"` with value `n`. -/
theorem stats_output_shape (n : Nat) :
    stats n Format.Json = StatsOutput.json [("numberOfPackages", some n)] ∧
    stats n Format.OpenMetrics
      = StatsOutput.openMetrics "dependencies" "number of dependencies"
          (Int.ofNat n) :=
  ⟨rfl, rfl⟩

/-- Total UTF-8 byte length of a character list. -/
def utf8Len (cs : List Char) : Nat := (cs.map Char.utf8Size).sum

theorem firstDiffAux_bounds (a : List Char) :
    ∀ (b : List Char) (n i : Nat),
      firstDiffAux a b n = some i → n ≤ i ∧ i - n < a.length := by
  induction a with
  | nil => intro b n i h; cases b <;> simp [firstDiffAux] at h
  | cons c r ih =>
    intro b n i h
    cases b with
    | nil => simp [firstDiffAux] at h
    | cons c' r' =>
      rw [firstDiffAux] at h
      split at h
      · injection h with h'
        subst h'
        simp
      · have := ih r' (n + 1) i h
        simp only [List.length_cons]
        omega

theorem length_le_utf8Len (l : List Char) : l.length ≤ utf8Len l := by
  induction l with
  | nil => simp [utf8Len]
  | cons x xs ih =>
    have hx := Char.utf8Size_pos x
    simp only [utf8Len, List.map_cons, List.sum_cons, List.length_cons] at *
    omega

theorem length_lt_utf8Len (l : List Char)
    (h : ∃ c ∈ l, 1 < c.utf8Size) : l.length < utf8Len l := by
  induction l with
  | nil => simp at h
  | cons x xs ih =>
    rcases h with ⟨c, hc, hsz⟩
    rcases List.mem_cons.mp hc with rfl | hmem
    · have := length_le_utf8Len xs
      simp only [utf8Len, List.map_cons, List.sum_cons, List.length_cons] at *
      omega
    · have := ih ⟨c, hmem, hsz⟩
      have hx := Char.utf8Size_pos x
      simp only [utf8Len, List.map_cons, List.sum_cons, List.length_cons] at *
      omega

/-- C10: the number in `"Difference at byte: <n>"` is the first differing
character index, not a byte offset: whenever the common prefix before the
first difference contains a multi-byte UTF-8 character, the reported
number is strictly smaller than the UTF-8 byte offset of the first
difference. -/
theorem diff_reports_char_index (original expected : String) (i : Nat)
    (h : firstDiffAux original.data expected.data 0 = some i)
    (hm : ∃ c ∈ original.data.take i, 1 < c.utf8Size) :
    diff original expected
      = some ("Difference at byte: " ++ toString i ++ ".\noriginal: "
          ++ original ++ ". expected: " ++ expected) ∧
    i < utf8Len (original.data.take i) := by
  refine ⟨by simp [diff, h], ?_⟩
  have hlen : i < original.data.length := by
    have := firstDiffAux_bounds original.data expected.data 0 i h
    omega
  have htake : (original.data.take i).length = i := by
    rw [List.length_take]
    exact Nat.min_eq_left hlen.le
  calc i = (original.data.take i).length := htake.symm
    _ < utf8Len (original.data.take i) :=
        length_lt_utf8Len (original.data.take i) hm

theorem diff_reports_char_index_witness :
    diff "áb" "ác"
      = some ("Difference at byte: " ++ toString 1 ++ ".\noriginal: "
          ++ "áb" ++ ". expected: " ++ "ác") ∧
    1 < utf8Len ("áb".data.take 1) :=
  diff_reports_char_index "áb" "ác" 1 (by decide) (by decide)

end LintLab
